import Mathlib

/-!
Shallow embedding of the order/customer domain layer of the repository
(`src/examples/01-clean-code-arch-simple/src/domain` and related files).

Modelling conventions:
* TypeScript `number` is modelled as `ℚ` (exact arithmetic; the repository
  performs no rounding, and the spec's pricing formulas are algebraic).
* JavaScript `Date` timestamps are modelled as `Int` (epoch milliseconds).
* Thrown exceptions are modelled with `Except DomainError`: each error class
  of the repository is one constructor carrying its message; a plain
  `new Error(...)` (the base class, no subclass) is the `genericError`
  constructor.
* JavaScript strings are Lean `String`s; the regex character class `\s` and
  `String.prototype.trim` are modelled over the ASCII whitespace characters.
-/

/-- Error model: one constructor per error class defined in the domain layer,
plus `genericError` for a plain `new Error(message)`. -/
inductive DomainError where
  | invalidOrderError (message : String)
  | invalidOrderItemError (message : String)
  | invalidOrderStatusError (message : String)
  | invalidOrderIdError (message : String)
  | invalidCustomerEmailError (message : String)
  | cannotCancelShippedOrderError (message : String)
  | genericError (message : String)
  deriving DecidableEq, Repr

/-- `true` exactly on errors raised as the base `Error` class, i.e. not one of
the distinguishable domain error kinds. -/
def DomainError.isGeneric : DomainError → Bool
  | .genericError _ => true
  | _ => false

/-- `order-status.ts`: the `OrderStatus` enum. -/
inductive OrderStatus where
  | Pending
  | Shipped
  | Cancelled
  deriving DecidableEq, Repr

/-- The persisted string value of each enum member
(`Pending = "pending"`, etc., from `order-status.ts`). -/
def OrderStatus.toPersistedString : OrderStatus → String
  | .Pending => "pending"
  | .Shipped => "shipped"
  | .Cancelled => "cancelled"

/-- `Object.values(OrderStatus)` from `order-status.ts`. -/
def orderStatusValues : List String := ["pending", "shipped", "cancelled"]

/-- `isValidOrderStatus` from `order-status.ts`. -/
def isValidOrderStatus (status : String) : Bool :=
  orderStatusValues.contains status

/-- `parseOrderStatus` from `order-status.ts`: returns the status string as an
enum member when valid, otherwise throws `InvalidOrderStatusError`. In the
source the returned enum member IS the input string; here the member is picked
so that its persisted string equals the input. -/
def parseOrderStatus (status : String) : Except DomainError OrderStatus :=
  if isValidOrderStatus status then
    .ok (if status == "pending" then .Pending
         else if status == "shipped" then .Shipped
         else .Cancelled)
  else
    .error (.invalidOrderStatusError ("Invalid order status: " ++ status))

/-- `order-item.ts`: the fields of `OrderItem`. The claims under study do not
involve `OrderItem.create`, so only the data and the derived `total` are
embedded. -/
structure OrderItem where
  productId : String
  productName : String
  quantity : ℚ
  pricePerUnit : ℚ
  deriving DecidableEq

/-- `OrderItem.total`: `quantity * pricePerUnit`. -/
def OrderItem.total (item : OrderItem) : ℚ :=
  item.quantity * item.pricePerUnit

/-- `order-id.ts`: the wrapped identifier value. -/
structure OrderId where
  value : String
  deriving DecidableEq

/-- `OrderId.toString`. -/
def OrderId.toString (id : OrderId) : String := id.value

/-- The `Order` aggregate root (the variant with `customerId`). -/
structure Order where
  id : OrderId
  customerId : String
  items : List OrderItem
  status : OrderStatus
  createdAt : Int
  deriving DecidableEq

/-- `Order.create`: throws `InvalidOrderError` when `items.length === 0`,
otherwise a new `Order` with status `Pending` and the given timestamp. -/
def Order.create (id : OrderId) (customerId : String) (items : List OrderItem)
    (createdAt : Int) : Except DomainError Order :=
  if items.length = 0 then
    .error (.invalidOrderError "Order must have at least one item")
  else
    .ok ⟨id, customerId, items, .Pending, createdAt⟩

/-- `Order.reconstitute`: no invariant checking at all. -/
def Order.reconstitute (id : OrderId) (customerId : String)
    (items : List OrderItem) (status : OrderStatus) (createdAt : Int) : Order :=
  ⟨id, customerId, items, status, createdAt⟩

/-- `Order.cancel`: throws `CannotCancelShippedOrderError` from `Shipped`
(message built in `cannot-cancel-shipped-order-error.ts` from the order id);
returns `this` itself from `Cancelled`; otherwise a new `Order` with the same
fields except status `Cancelled`. -/
def Order.cancel (o : Order) : Except DomainError Order :=
  if o.status = .Shipped then
    .error (.cannotCancelShippedOrderError
      ("Cannot cancel order " ++ o.id.toString ++ ": order has already been shipped"))
  else if o.status = .Cancelled then
    .ok o
  else
    .ok ⟨o.id, o.customerId, o.items, .Cancelled, o.createdAt⟩

/-- `Order.subtotal`: `items.reduce((sum, item) => sum + item.total, 0)`. -/
def Order.subtotal (o : Order) : ℚ :=
  o.items.foldl (fun sum item => sum + item.total) 0

/-- `order.ts`: the simpler `Order` variant without `customerId`, whose
`create` stamps the current time (`new Date()`, modelled as the explicit
argument `now`). -/
structure SimpleOrder where
  id : OrderId
  items : List OrderItem
  status : OrderStatus
  createdAt : Int
  deriving DecidableEq

/-- `Order.create` of the simple variant. -/
def SimpleOrder.create (id : OrderId) (items : List OrderItem) (now : Int) :
    Except DomainError SimpleOrder :=
  if items.length = 0 then
    .error (.invalidOrderError "Order must have at least one item")
  else
    .ok ⟨id, items, .Pending, now⟩

/-- `Order.reconstitute` of the simple variant. -/
def SimpleOrder.reconstitute (id : OrderId) (items : List OrderItem)
    (status : OrderStatus) (createdAt : Int) : SimpleOrder :=
  ⟨id, items, status, createdAt⟩

/-- `Order.cancel` of the simple variant. -/
def SimpleOrder.cancel (o : SimpleOrder) : Except DomainError SimpleOrder :=
  if o.status = .Shipped then
    .error (.cannotCancelShippedOrderError
      ("Cannot cancel order " ++ o.id.toString ++ ": order has already been shipped"))
  else if o.status = .Cancelled then
    .ok o
  else
    .ok ⟨o.id, o.items, .Cancelled, o.createdAt⟩

/-- `Order.totalAmount` of the simple variant: same reduce as `subtotal`. -/
def SimpleOrder.totalAmount (o : SimpleOrder) : ℚ :=
  o.items.foldl (fun sum item => sum + item.total) 0

/-- `pricing-strategy.ts`: `StandardPricing` has no state. -/
structure StandardPricing where
  deriving DecidableEq

/-- `StandardPricing.calculateFinalPrice`: identity. -/
def StandardPricing.calculateFinalPrice (_s : StandardPricing) (subtotal : ℚ) : ℚ :=
  subtotal

/-- `BulkDiscountPricing` state. -/
structure BulkDiscountPricing where
  thresholdAmount : ℚ
  discountPercentage : ℚ
  deriving DecidableEq

/-- The `BulkDiscountPricing` constructor: throws a plain `Error` (not a
domain error subclass) when the percentage is out of range. -/
def BulkDiscountPricing.create (thresholdAmount discountPercentage : ℚ) :
    Except DomainError BulkDiscountPricing :=
  if discountPercentage < 0 ∨ discountPercentage > 100 then
    .error (.genericError "Discount percentage must be between 0 and 100")
  else
    .ok ⟨thresholdAmount, discountPercentage⟩

/-- `BulkDiscountPricing.calculateFinalPrice`. -/
def BulkDiscountPricing.calculateFinalPrice (s : BulkDiscountPricing)
    (subtotal : ℚ) : ℚ :=
  if subtotal ≥ s.thresholdAmount then
    subtotal * (1 - s.discountPercentage / 100)
  else
    subtotal

/-- `PromotionalPricing` state. -/
structure PromotionalPricing where
  discountPercentage : ℚ
  deriving DecidableEq

/-- The `PromotionalPricing` constructor: same range check, same plain
`Error`. -/
def PromotionalPricing.create (discountPercentage : ℚ) :
    Except DomainError PromotionalPricing :=
  if discountPercentage < 0 ∨ discountPercentage > 100 then
    .error (.genericError "Discount percentage must be between 0 and 100")
  else
    .ok ⟨discountPercentage⟩

/-- `PromotionalPricing.calculateFinalPrice`. -/
def PromotionalPricing.calculateFinalPrice (s : PromotionalPricing)
    (subtotal : ℚ) : ℚ :=
  subtotal * (1 - s.discountPercentage / 100)

/-- The ASCII whitespace characters matched by the JavaScript regex class
`\s` and trimmed by `String.prototype.trim` (the Unicode members of those
classes are outside the model). -/
def isJsSpace (c : Char) : Bool :=
  c == ' ' || c == '\t' || c == '\n' || c == '\r' || c == '\x0b' || c == '\x0c'

/-- `String.prototype.trim`: drop leading and trailing whitespace. -/
def jsTrim (s : String) : String :=
  ⟨((s.toList.dropWhile isJsSpace).reverse.dropWhile isJsSpace).reverse⟩

/-- `String.prototype.toLowerCase`, over the ASCII range. -/
def jsToLower (s : String) : String :=
  ⟨s.toList.map Char.toLower⟩

/-- A character admitted by the regex class `[^\s@]`. -/
def isEmailAtomChar (c : Char) : Bool :=
  !(isJsSpace c) && c != '@'

/-- The part of the regex after the `@`: `[^\s@]+\.[^\s@]+`, i.e. a non-empty
run of `[^\s@]` characters containing a `.` that is neither the first nor the
last character. -/
def emailDomainOk (dpart : List Char) : Bool :=
  (!dpart.isEmpty) && dpart.all isEmailAtomChar &&
  ((dpart.drop 1).dropLast.contains '.')

/-- The whole regex, given the characters before the first `@` and the rest of
the string starting at that `@` (if any). -/
def emailSplitOk (lpart rest : List Char) : Bool :=
  match rest with
  | a :: dpart =>
      a == '@' && (!lpart.isEmpty) && lpart.all isEmailAtomChar &&
      emailDomainOk dpart
  | [] => false

/-- The test of the regex `^[^\s@]+@[^\s@]+\.[^\s@]+$` from
`customer-email.ts`. The string must split at its unique `@` into a non-empty
local part of `[^\s@]` characters and a domain matching `[^\s@]+\.[^\s@]+`.
Because neither character class admits `@`, a matching string contains exactly
one `@`, so the split at the first `@` is the only candidate. -/
def emailRegexTest (s : String) : Bool :=
  emailSplitOk (s.toList.takeWhile (fun c => c ≠ '@'))
    (s.toList.dropWhile (fun c => c ≠ '@'))

/-- `customer-email.ts`: the wrapped value. -/
structure CustomerEmail where
  value : String
  deriving DecidableEq

/-- `CustomerEmail.create`: rejects empty/whitespace-only input, then input
failing the regex, then input longer than 320 characters; on success wraps
`value.toLowerCase().trim()`. -/
def CustomerEmail.create (value : String) : Except DomainError CustomerEmail :=
  if value = "" ∨ (jsTrim value).length = 0 then
    .error (.invalidCustomerEmailError "Customer email cannot be empty")
  else if emailRegexTest value = false then
    .error (.invalidCustomerEmailError "Customer email must be a valid email address")
  else if value.length > 320 then
    .error (.invalidCustomerEmailError "Customer email cannot exceed 320 characters")
  else
    .ok ⟨jsTrim (jsToLower value)⟩

/-! ## Sample values used by witnesses -/

/-- A concrete order item (Scenario A of the spec: qty 2 at 10.5). -/
def sampleItem : OrderItem :=
  { productId := "prod-1", productName := "Widget", quantity := 2, pricePerUnit := 21 / 2 }

/-- A concrete order id. -/
def sampleId : OrderId := ⟨"order-123"⟩

/-- A concrete pending order. -/
def samplePending : Order := ⟨sampleId, "cust-1", [sampleItem], .Pending, 0⟩

/-- A concrete shipped order. -/
def sampleShipped : Order := ⟨sampleId, "cust-1", [sampleItem], .Shipped, 0⟩

/-- A concrete cancelled order. -/
def sampleCancelled : Order := ⟨sampleId, "cust-1", [sampleItem], .Cancelled, 0⟩

/-! ## Shared helper lemmas -/

/-- Folding the running sum of `reduce((sum, item) => sum + item.total, 0)`
equals the accumulator plus the sum of the item totals. -/
theorem foldl_add_total (l : List OrderItem) (a : ℚ) :
    l.foldl (fun sum item => sum + item.total) a
      = a + (l.map fun item => item.quantity * item.pricePerUnit).sum := by
  induction l generalizing a with
  | nil => simp
  | cons x xs ih =>
    rw [List.foldl_cons, ih, List.map_cons, List.sum_cons, OrderItem.total]
    ring

/-- A successful `Order.create` returns exactly the given items, and they are
non-empty. -/
theorem order_create_ok_items {id : OrderId} {cid : String}
    {items : List OrderItem} {t : Int} {o : Order}
    (h : Order.create id cid items t = .ok o) : o.items = items ∧ items ≠ [] := by
  rw [Order.create] at h
  split at h
  · exact absurd h (by simp)
  · rename_i hlen
    rw [Except.ok.injEq] at h
    subst h
    exact ⟨rfl, fun he => hlen (by simp [he])⟩

/-- A successful `Order.cancel` preserves the items list. -/
theorem order_cancel_ok_items {o o' : Order} (h : o.cancel = .ok o') :
    o'.items = o.items := by
  rw [Order.cancel] at h
  split at h
  · exact absurd h (by simp)
  · split at h
    · rw [Except.ok.injEq] at h
      subst h
      rfl
    · rw [Except.ok.injEq] at h
      subst h
      rfl

/-! ## Claim theorems -/

/-- C1: `cancel` follows the three-state machine. From `Pending` it returns a
new `Order` with status `Cancelled` that is distinct from the original (so, in
particular, it cannot be the same object); from `Shipped` it raises
`CannotCancelShippedOrderError` whose message contains the order id; from
`Cancelled` it returns the original order itself (the source returns `this`,
so the result is the very same object), and these three cases exhaust the
state space. -/
theorem order_cancel_state_machine (o : Order) :
    (o.status = .Pending →
      o.cancel = .ok ⟨o.id, o.customerId, o.items, .Cancelled, o.createdAt⟩ ∧
      ∀ o', o.cancel = .ok o' → o'.status = .Cancelled ∧ o' ≠ o) ∧
    (o.status = .Shipped →
      o.cancel = .error (.cannotCancelShippedOrderError
        ("Cannot cancel order " ++ o.id.toString ++ ": order has already been shipped")) ∧
      ∀ msg, o.cancel = .error (.cannotCancelShippedOrderError msg) →
        ∃ pre post, msg = pre ++ o.id.toString ++ post) ∧
    (o.status = .Cancelled → o.cancel = .ok o) := by
  refine ⟨?_, ?_, ?_⟩
  · intro h
    have hc : o.cancel = .ok ⟨o.id, o.customerId, o.items, .Cancelled, o.createdAt⟩ := by
      rw [Order.cancel]
      rw [if_neg (by rw [h]; intro hx; cases hx)]
      rw [if_neg (by rw [h]; intro hx; cases hx)]
    refine ⟨hc, ?_⟩
    intro o' ho'
    rw [hc, Except.ok.injEq] at ho'
    subst ho'
    refine ⟨rfl, ?_⟩
    intro he
    have hst := congrArg Order.status he
    rw [h] at hst
    cases hst
  · intro h
    have hc : o.cancel = .error (.cannotCancelShippedOrderError
        ("Cannot cancel order " ++ o.id.toString ++ ": order has already been shipped")) := by
      rw [Order.cancel, if_pos h]
    refine ⟨hc, ?_⟩
    intro msg hmsg
    rw [hc, Except.error.injEq, DomainError.cannotCancelShippedOrderError.injEq] at hmsg
    exact ⟨"Cannot cancel order ", ": order has already been shipped", hmsg.symm⟩
  · intro h
    rw [Order.cancel]
    rw [if_neg (by rw [h]; intro hx; cases hx)]
    rw [if_pos h]

/-- C1 witness: the three transitions evaluated on concrete orders. -/
theorem order_cancel_state_machine_witness :
    samplePending.cancel =
      .ok ⟨sampleId, "cust-1", [sampleItem], .Cancelled, 0⟩ ∧
    sampleShipped.cancel = .error (.cannotCancelShippedOrderError
      "Cannot cancel order order-123: order has already been shipped") ∧
    sampleCancelled.cancel = .ok sampleCancelled := by
  refine ⟨?_, ?_, ?_⟩
  · exact ((order_cancel_state_machine samplePending).1 rfl).1
  · exact ((order_cancel_state_machine sampleShipped).2.1 rfl).1
  · exact (order_cancel_state_machine sampleCancelled).2.2 rfl

/-- C3: `Order.create` (both variants) fails with `InvalidOrderError` exactly
when the item sequence is empty; with one or more items it returns an order
with status `Pending`, the given fields, and the given (or, in the simple
variant, the current) timestamp. -/
theorem order_create_validation (id : OrderId) (cid : String)
    (items : List OrderItem) (t : Int) (sid : OrderId)
    (sitems : List OrderItem) (now : Int) :
    ((∃ o, Order.create id cid items t = .ok o) ↔ items ≠ []) ∧
    (items = [] → Order.create id cid items t =
      .error (.invalidOrderError "Order must have at least one item")) ∧
    (items ≠ [] → Order.create id cid items t =
      .ok ⟨id, cid, items, .Pending, t⟩) ∧
    (sitems = [] → SimpleOrder.create sid sitems now =
      .error (.invalidOrderError "Order must have at least one item")) ∧
    (sitems ≠ [] → SimpleOrder.create sid sitems now =
      .ok ⟨sid, sitems, .Pending, now⟩) := by
  refine ⟨⟨?_, ?_⟩, ?_, ?_, ?_, ?_⟩
  · rintro ⟨o, ho⟩ rfl
    simp [Order.create] at ho
  · intro h
    exact ⟨_, by rw [Order.create, if_neg (by simp [h])]⟩
  · intro h
    rw [Order.create, if_pos (by simp [h])]
  · intro h
    rw [Order.create, if_neg (by simp [h])]
  · intro h
    rw [SimpleOrder.create, if_pos (by simp [h])]
  · intro h
    rw [SimpleOrder.create, if_neg (by simp [h])]

/-- C3 witness: a one-item creation succeeds as `Pending` with the given
timestamp; an empty creation fails with `InvalidOrderError`. -/
theorem order_create_validation_witness :
    Order.create sampleId "cust-1" [sampleItem] 7 =
      .ok ⟨sampleId, "cust-1", [sampleItem], .Pending, 7⟩ ∧
    Order.create sampleId "cust-1" [] 7 =
      .error (.invalidOrderError "Order must have at least one item") := by
  refine ⟨?_, ?_⟩
  · exact (order_create_validation sampleId "cust-1" [sampleItem] 7 sampleId [] 0).2.2.1
      (by simp)
  · exact (order_create_validation sampleId "cust-1" [] 7 sampleId [] 0).2.1 rfl

/-- C4: the three pricing formulas. `StandardPricing` is the identity;
`BulkDiscountPricing(t, p)` multiplies by `1 - p/100` exactly when the
subtotal reaches the threshold and is the identity below it;
`PromotionalPricing(p)` multiplies by `1 - p/100` unconditionally. -/
theorem pricing_strategy_formulas (std : StandardPricing) (t p x : ℚ) :
    std.calculateFinalPrice x = x ∧
    (x ≥ t → (BulkDiscountPricing.mk t p).calculateFinalPrice x = x * (1 - p / 100)) ∧
    (x < t → (BulkDiscountPricing.mk t p).calculateFinalPrice x = x) ∧
    (PromotionalPricing.mk p).calculateFinalPrice x = x * (1 - p / 100) := by
  refine ⟨rfl, ?_, ?_, rfl⟩
  · intro h
    rw [BulkDiscountPricing.calculateFinalPrice, if_pos h]
  · intro h
    rw [BulkDiscountPricing.calculateFinalPrice, if_neg (not_le.mpr h)]

/-- C4 witness: Scenario D and E of the spec, with a 10% bulk discount at
threshold 200 applied to subtotals 250 and 100. -/
theorem pricing_strategy_formulas_witness :
    (BulkDiscountPricing.mk 200 10).calculateFinalPrice 250 = 225 ∧
    (BulkDiscountPricing.mk 200 10).calculateFinalPrice 100 = 100 := by
  refine ⟨?_, ?_⟩
  · rw [(pricing_strategy_formulas ⟨⟩ 200 10 250).2.1 (by norm_num)]
    norm_num
  · exact (pricing_strategy_formulas ⟨⟩ 200 10 100).2.2.1 (by norm_num)

/-- C6: the subtotal (`totalAmount` in the simple variant) equals the sum over
all items of `quantity * pricePerUnit`; both accessors are pure functions of
the order value, so repeated evaluations coincide. -/
theorem order_subtotal_sum (o : Order) (so : SimpleOrder) :
    o.subtotal = (o.items.map fun item => item.quantity * item.pricePerUnit).sum ∧
    so.totalAmount = (so.items.map fun item => item.quantity * item.pricePerUnit).sum ∧
    o.subtotal = o.subtotal := by
  refine ⟨?_, ?_, rfl⟩
  · rw [Order.subtotal, foldl_add_total, zero_add]
  · rw [SimpleOrder.totalAmount, foldl_add_total, zero_add]

/-- C7: cancelling a `Pending` order returns a new order that keeps the same
id, customerId, createdAt and the very same items list (in the source the
items field of the new object is the original array reference), with only the
status changed to `Cancelled`; the original order value is untouched since
`cancel` constructs a fresh object. -/
theorem order_cancel_frame (o : Order) (h : o.status = .Pending) :
    ∃ o', o.cancel = .ok o' ∧ o'.id = o.id ∧ o'.customerId = o.customerId ∧
      o'.items = o.items ∧ o'.createdAt = o.createdAt ∧ o'.status = .Cancelled := by
  refine ⟨⟨o.id, o.customerId, o.items, .Cancelled, o.createdAt⟩, ?_, rfl, rfl, rfl, rfl, rfl⟩
  rw [Order.cancel]
  rw [if_neg (by rw [h]; intro hx; cases hx)]
  rw [if_neg (by rw [h]; intro hx; cases hx)]

/-- C7 witness: the frame condition evaluated on a concrete pending order. -/
theorem order_cancel_frame_witness :
    ∃ o', samplePending.cancel = .ok o' ∧ o'.id = samplePending.id ∧
      o'.customerId = samplePending.customerId ∧
      o'.items = samplePending.items ∧
      o'.createdAt = samplePending.createdAt ∧ o'.status = .Cancelled :=
  order_cancel_frame samplePending rfl

/-- C8: `parseOrderStatus` accepts exactly the three persisted status strings,
returning the status whose persisted string is the input, and raises
`InvalidOrderStatusError` (message naming the input) on anything else. -/
theorem parse_order_status_spec (s : String) :
    (isValidOrderStatus s = true ↔
      s = "pending" ∨ s = "shipped" ∨ s = "cancelled") ∧
    (isValidOrderStatus s = true →
      ∃ st, parseOrderStatus s = .ok st ∧ st.toPersistedString = s) ∧
    (isValidOrderStatus s = false →
      parseOrderStatus s =
        .error (.invalidOrderStatusError ("Invalid order status: " ++ s))) := by
  have hv : isValidOrderStatus s = true ↔
      s = "pending" ∨ s = "shipped" ∨ s = "cancelled" := by
    simp [isValidOrderStatus, orderStatusValues, List.contains_cons]
  refine ⟨hv, ?_, ?_⟩
  · intro h
    rcases hv.mp h with rfl | rfl | rfl
    · exact ⟨.Pending, rfl, rfl⟩
    · exact ⟨.Shipped, rfl, rfl⟩
    · exact ⟨.Cancelled, rfl, rfl⟩
  · intro h
    rw [parseOrderStatus, if_neg (by rw [h]; intro hx; cases hx)]

/-- C8 witness: a valid and an invalid status string. -/
theorem parse_order_status_spec_witness :
    (∃ st, parseOrderStatus "shipped" = .ok st ∧
      st.toPersistedString = "shipped") ∧
    parseOrderStatus "Pending" =
      .error (.invalidOrderStatusError "Invalid order status: Pending") := by
  refine ⟨?_, ?_⟩
  · exact (parse_order_status_spec "shipped").2.1 rfl
  · exact (parse_order_status_spec "Pending").2.2 rfl

/-- The set of `Order` values obtainable through the aggregate's public
operations exactly as C2 enumerates them: any successful `create`, any
`reconstitute`, and any successful `cancel` of an obtainable order. -/
inductive Obtainable : Order → Prop where
  | create (id : OrderId) (cid : String) (items : List OrderItem) (t : Int)
      (o : Order) : Order.create id cid items t = .ok o → Obtainable o
  | reconstitute (id : OrderId) (cid : String) (items : List OrderItem)
      (status : OrderStatus) (t : Int) :
      Obtainable (Order.reconstitute id cid items status t)
  | cancel (o o' : Order) : Obtainable o → o.cancel = .ok o' → Obtainable o'

/-- The orders obtainable when `reconstitute` is only fed non-empty item
lists, i.e. when the caller obligation documented for `reconstitute`
(rehydrate only previously-valid state) is honoured for the item invariant. -/
inductive ObtainableValid : Order → Prop where
  | create (id : OrderId) (cid : String) (items : List OrderItem) (t : Int)
      (o : Order) : Order.create id cid items t = .ok o → ObtainableValid o
  | reconstitute (id : OrderId) (cid : String) (items : List OrderItem)
      (status : OrderStatus) (t : Int) : items ≠ [] →
      ObtainableValid (Order.reconstitute id cid items status t)
  | cancel (o o' : Order) : ObtainableValid o → o.cancel = .ok o' →
      ObtainableValid o'

/-- C2 counterexample: the claim quantifies over all orders obtainable through
`create`, `reconstitute` and `cancel`, but `reconstitute` performs no check,
so reconstituting with an empty item list yields an obtainable order with no
items. -/
theorem order_items_invariant_counterexample :
    ¬ (∀ o : Order, Obtainable o → o.items ≠ []) := by
  intro h
  exact h (Order.reconstitute ⟨"order-1"⟩ "cust-1" [] .Pending 0)
    (Obtainable.reconstitute ⟨"order-1"⟩ "cust-1" [] .Pending 0) rfl

/-- C2 (amended): every order obtainable through `create` and `cancel` has at
least one item, and `reconstitute` preserves the invariant exactly when the
caller supplies a non-empty item list (its documented obligation); the blanket
claim fails only for `reconstitute` fed empty items. -/
theorem order_items_invariant (o : Order) (h : ObtainableValid o) :
    o.items ≠ [] := by
  induction h with
  | create id cid items t o hc =>
    obtain ⟨hitems, hne⟩ := order_create_ok_items hc
    rw [hitems]
    exact hne
  | reconstitute id cid items status t hne => exact hne
  | cancel o o' _ hc ih =>
    rw [order_cancel_ok_items hc]
    exact ih

/-- C2 witness: the invariant evaluated on a concrete obtainable order. -/
theorem order_items_invariant_witness :
    (Order.reconstitute ⟨"order-1"⟩ "cust-1" [sampleItem] .Pending 0).items ≠ [] :=
  order_items_invariant _
    (ObtainableValid.reconstitute ⟨"order-1"⟩ "cust-1" [sampleItem] .Pending 0
      (by simp))

/-- C5 counterexample: constructing `BulkDiscountPricing` with percentage -1
does fail, but the failure is a plain generic `Error` (the base class, message
"Discount percentage must be between 0 and 100"), not a distinguishable
domain error kind, contradicting the claim's "never a generic exception". -/
theorem pricing_error_kind_counterexample :
    ¬ (∀ t p : ℚ, p < 0 ∨ p > 100 →
        ∀ e, BulkDiscountPricing.create t p = .error e →
          e.isGeneric = false) := by
  intro h
  have hc : BulkDiscountPricing.create 100 (-1) =
      .error (.genericError "Discount percentage must be between 0 and 100") := by
    rw [BulkDiscountPricing.create, if_pos (Or.inl (by norm_num))]
  have hg := h 100 (-1) (Or.inl (by norm_num)) _ hc
  rw [DomainError.isGeneric] at hg
  cases hg

/-- C5 (amended): constructing `BulkDiscountPricing` or `PromotionalPricing`
with `discountPercentage < 0` or `> 100` fails, but — unlike the other
invariant violations of the domain layer — the failure is a plain generic
`Error` with message "Discount percentage must be between 0 and 100", not a
distinguishable error kind; within range both constructors succeed. -/
theorem pricing_range_check (t p : ℚ) :
    ((p < 0 ∨ p > 100) →
      BulkDiscountPricing.create t p =
        .error (.genericError "Discount percentage must be between 0 and 100") ∧
      PromotionalPricing.create p =
        .error (.genericError "Discount percentage must be between 0 and 100")) ∧
    (0 ≤ p ∧ p ≤ 100 →
      BulkDiscountPricing.create t p = .ok ⟨t, p⟩ ∧
      PromotionalPricing.create p = .ok ⟨p⟩) ∧
    (∀ e, BulkDiscountPricing.create t p = .error e → e.isGeneric = true) ∧
    (∀ e, PromotionalPricing.create p = .error e → e.isGeneric = true) := by
  refine ⟨?_, ?_, ?_, ?_⟩
  · intro h
    constructor
    · rw [BulkDiscountPricing.create, if_pos h]
    · rw [PromotionalPricing.create, if_pos h]
  · intro h
    have hn : ¬ (p < 0 ∨ p > 100) := by
      push_neg
      exact h
    constructor
    · rw [BulkDiscountPricing.create, if_neg hn]
    · rw [PromotionalPricing.create, if_neg hn]
  · intro e he
    rw [BulkDiscountPricing.create] at he
    split at he
    · rw [Except.error.injEq] at he
      rw [← he, DomainError.isGeneric]
    · cases he
  · intro e he
    rw [PromotionalPricing.create] at he
    split at he
    · rw [Except.error.injEq] at he
      rw [← he, DomainError.isGeneric]
    · cases he

/-- C5 witness: the range check evaluated at percentage -1 (failure, generic
error) and at percentage 10 (success). -/
theorem pricing_range_check_witness :
    (BulkDiscountPricing.create 200 (-1) =
        .error (.genericError "Discount percentage must be between 0 and 100") ∧
      PromotionalPricing.create (-1) =
        .error (.genericError "Discount percentage must be between 0 and 100")) ∧
    BulkDiscountPricing.create 200 10 = .ok ⟨200, 10⟩ := by
  refine ⟨?_, ?_⟩
  · exact (pricing_range_check 200 (-1)).1 (Or.inl (by norm_num))
  · exact ((pricing_range_check 200 10).2.1 (by norm_num)).1

/-- `dropWhile` is the identity on a list none of whose elements satisfy the
predicate. -/
theorem dropWhile_all_false {α : Type} {p : α → Bool} {l : List α}
    (h : ∀ c ∈ l, p c = false) : l.dropWhile p = l := by
  cases l with
  | nil => rfl
  | cons a as =>
    rw [List.dropWhile_cons, h a (List.mem_cons_self a as)]
    simp

/-- Rebuilding a string from its character list gives the string back. -/
theorem string_mk_toList (s : String) : String.mk s.toList = s := rfl

/-- `jsTrim` is the identity on a string with no JS whitespace characters. -/
theorem jsTrim_eq_self {s : String} (h : ∀ c ∈ s.toList, isJsSpace c = false) :
    jsTrim s = s := by
  rw [jsTrim, dropWhile_all_false h,
    dropWhile_all_false (fun c hc => h c (List.mem_reverse.mp hc)),
    List.reverse_reverse]
  exact string_mk_toList s

/-- Lowercasing never turns a non-whitespace character into whitespace. -/
theorem isJsSpace_toLower (c : Char) (h : isJsSpace c = false) :
    isJsSpace c.toLower = false := by
  simp only [Char.toLower]
  split
  · rename_i hc
    obtain ⟨h1, h2⟩ := hc
    obtain ⟨n, hn⟩ : ∃ n, c.toNat = n := ⟨_, rfl⟩
    rw [hn] at h1 h2 ⊢
    interval_cases n <;> rfl
  · exact h

/-- A string passing the email regex contains no JS whitespace at all: every
character lies in a `[^\s@]` class or is the `@`. -/
theorem emailRegexTest_no_space {s : String} (h : emailRegexTest s = true) :
    ∀ c ∈ s.toList, isJsSpace c = false := by
  intro c hc
  rw [emailRegexTest] at h
  cases hd : s.toList.dropWhile (fun c => c ≠ '@') with
  | nil =>
    rw [hd, emailSplitOk] at h
    cases h
  | cons a dpart =>
    rw [hd, emailSplitOk] at h
    simp only [Bool.and_eq_true] at h
    obtain ⟨⟨⟨ha, _⟩, hall⟩, hdom⟩ := h
    simp only [emailDomainOk, Bool.and_eq_true] at hdom
    obtain ⟨⟨_, hdall⟩, _⟩ := hdom
    have hsplit : s.toList.takeWhile (fun c => c ≠ '@') ++ a :: dpart
        = s.toList := by
      rw [← hd]
      exact List.takeWhile_append_dropWhile _ _
    rw [← hsplit] at hc
    rcases List.mem_append.mp hc with hmem | hmem
    · have hatom := List.all_eq_true.mp hall c hmem
      rw [isEmailAtomChar, Bool.and_eq_true] at hatom
      rw [Bool.not_eq_true'] at hatom
      exact hatom.1
    · rcases List.mem_cons.mp hmem with rfl | hmem
      · rw [beq_iff_eq] at ha
        rw [ha]
        rfl
      · have hatom := List.all_eq_true.mp hdall c hmem
        rw [isEmailAtomChar, Bool.and_eq_true] at hatom
        rw [Bool.not_eq_true'] at hatom
        exact hatom.1

/-- Every failure of `CustomerEmail.create` is an `InvalidCustomerEmailError`
(the three throw sites all use that class). -/
theorem customer_email_create_error_shape {s : String} {err : DomainError}
    (h : CustomerEmail.create s = .error err) :
    ∃ msg, err = .invalidCustomerEmailError msg := by
  rw [CustomerEmail.create] at h
  split_ifs at h
  · rw [Except.error.injEq] at h
    exact ⟨_, h.symm⟩
  · rw [Except.error.injEq] at h
    exact ⟨_, h.symm⟩
  · rw [Except.error.injEq] at h
    exact ⟨_, h.symm⟩

/-- A successful `CustomerEmail.create` wraps the lowercased-then-trimmed
input and implies the regex accepted the raw input. -/
theorem customer_email_create_ok {s : String} {e : CustomerEmail}
    (h : CustomerEmail.create s = .ok e) :
    e.value = jsTrim (jsToLower s) ∧ emailRegexTest s = true := by
  rw [CustomerEmail.create] at h
  split_ifs at h with h1 h2 h3
  · rw [Except.ok.injEq] at h
    rw [← h]
    refine ⟨rfl, ?_⟩
    cases hb : emailRegexTest s with
    | false => exact absurd hb h2
    | true => rfl

/-- `CustomerEmail.create` fails exactly on empty-or-whitespace-only input,
regex-rejected input, or input longer than 320 characters. -/
theorem customer_email_create_error_iff (s : String) :
    (∃ err, CustomerEmail.create s = .error err) ↔
      ((jsTrim s).length = 0 ∨ emailRegexTest s = false ∨ 320 < s.length) := by
  constructor
  · rintro ⟨err, herr⟩
    rw [CustomerEmail.create] at herr
    split_ifs at herr with h1 h2 h3
    · rcases h1 with rfl | h1
      · exact Or.inl rfl
      · exact Or.inl h1
    · exact Or.inr (Or.inl h2)
    · exact Or.inr (Or.inr h3)
  · intro h
    rw [CustomerEmail.create]
    split_ifs with h1 h2 h3
    · exact ⟨_, rfl⟩
    · exact ⟨_, rfl⟩
    · exact ⟨_, rfl⟩
    · exfalso
      rcases h with h | h | h
      · exact h1 (Or.inr h)
      · exact h2 h
      · exact h3 h

/-- C9: every accepted input is wrapped as its lowercased, trimmed form, and
`CustomerEmail.create` fails — always with `InvalidCustomerEmailError` —
exactly when the input is empty or whitespace-only, fails the email regex, or
exceeds 320 characters. -/
theorem customer_email_create_spec (s : String) :
    (∀ e, CustomerEmail.create s = .ok e → e.value = jsTrim (jsToLower s)) ∧
    ((∃ err, CustomerEmail.create s = .error err) ↔
      ((jsTrim s).length = 0 ∨ emailRegexTest s = false ∨ 320 < s.length)) ∧
    (∀ err, CustomerEmail.create s = .error err →
      ∃ msg, err = .invalidCustomerEmailError msg) :=
  ⟨fun _ he => (customer_email_create_ok he).1,
    customer_email_create_error_iff s,
    fun _ herr => customer_email_create_error_shape herr⟩

/-- C9 witness: a mixed-case address is accepted and normalized; the empty
string is rejected. -/
theorem customer_email_create_spec_witness :
    (CustomerEmail.mk "user@example.com").value =
      jsTrim (jsToLower "User@Example.com") ∧
    ((jsTrim "").length = 0 ∨ emailRegexTest "" = false ∨
      320 < ("" : String).length) := by
  refine ⟨?_, ?_⟩
  · exact (customer_email_create_spec "User@Example.com").1 ⟨"user@example.com"⟩ rfl
  · exact (customer_email_create_spec "").2.1.mp ⟨_, rfl⟩

/-- C10: the regex is matched against the untrimmed input and admits no
whitespace, so any input with a leading or trailing whitespace character fails
with `InvalidCustomerEmailError` (even when its trim would be a valid
address), and consequently every accepted input equals its own trim, making
the trim step of the normalization a no-op: the stored value is just the
lowercased input. -/
theorem customer_email_untrimmed_match (s : String) :
    (∀ c cs, s.toList = c :: cs → isJsSpace c = true →
      ∃ msg, CustomerEmail.create s = .error (.invalidCustomerEmailError msg)) ∧
    (∀ c cs, s.toList = cs ++ [c] → isJsSpace c = true →
      ∃ msg, CustomerEmail.create s = .error (.invalidCustomerEmailError msg)) ∧
    (∀ e, CustomerEmail.create s = .ok e →
      jsTrim s = s ∧ e.value = jsToLower s) := by
  have key : ∀ c ∈ s.toList, isJsSpace c = true →
      ∃ msg, CustomerEmail.create s =
        .error (.invalidCustomerEmailError msg) := by
    intro c hc hws
    cases hcr : CustomerEmail.create s with
    | error err =>
      obtain ⟨msg, rfl⟩ := customer_email_create_error_shape hcr
      exact ⟨msg, rfl⟩
    | ok e =>
      exfalso
      have hre := (customer_email_create_ok hcr).2
      have hns := emailRegexTest_no_space hre c hc
      rw [hws] at hns
      cases hns
  refine ⟨?_, ?_, ?_⟩
  · intro c cs hcs hws
    exact key c (by rw [hcs]; exact List.mem_cons_self c cs) hws
  · intro c cs hcs hws
    exact key c (by rw [hcs]; simp) hws
  · intro e he
    have hok := customer_email_create_ok he
    have hns := emailRegexTest_no_space hok.2
    refine ⟨jsTrim_eq_self hns, ?_⟩
    rw [hok.1]
    apply jsTrim_eq_self
    intro c hc
    have hc' : c ∈ s.toList.map Char.toLower := hc
    obtain ⟨d, hd, rfl⟩ := List.mem_map.mp hc'
    exact isJsSpace_toLower d (hns d hd)

/-- C10 witness: `" a@b.c"` (leading space, trim is a valid address) is
rejected, while the accepted `"a@B.c"` equals its own trim and is stored as
its lowercase form. -/
theorem customer_email_untrimmed_match_witness :
    (∃ msg, CustomerEmail.create " a@b.c" =
      .error (.invalidCustomerEmailError msg)) ∧
    emailRegexTest (jsTrim " a@b.c") = true ∧
    jsTrim "a@B.c" = "a@B.c" ∧
    (CustomerEmail.mk "a@b.c").value = jsToLower "a@B.c" := by
  refine ⟨?_, rfl, ?_⟩
  · exact (customer_email_untrimmed_match " a@b.c").1 ' ' "a@b.c".toList rfl rfl
  · have h := (customer_email_untrimmed_match "a@B.c").2.2 ⟨"a@b.c"⟩ rfl
    exact ⟨h.1, h.2⟩
